import Mathlib

/-!
# Transaction resource service (`src/server.js`)

A shallow embedding of the four Express route handlers of `src/server.js`
(create, list by user, update status, get by id) over a list model of the
`transactions` collection, together with the JavaScript value operations the
handlers rely on (`!v`, `parseInt(v, 10)`, `Array.prototype.includes`).

Modelling conventions.

* JavaScript numbers are NaN, the two infinities and the integers that an
  IEEE double holds exactly.  A mathematical integer becomes a number by
  rounding to the nearest double, ties to even, and overflows to an
  infinity; the string form of a number has the shortest digits that round
  back to it.  Signed zero is not distinguished from zero (the handlers
  cannot tell them apart) and non-integral numbers are not part of the
  model (no handler branch looks at a fraction).
* A request body and a parsed query string are objects of JSON-like values.
  Converting a value to a string can throw (an object with an own property
  `toString`); the handlers catch that and answer 500.
* The `transactions` collection is the list of its documents in natural
  (insertion) order.  `insertOne` appends, and fails on a duplicate `_id`
  like the unique `_id` index does.  Storage never fails otherwise.
* The clock value read by `new Date()` and the `ObjectId` generated by the
  driver for an inserted document are inputs of the create handler.
* `new ObjectId(id)` is a parameter `mkObjectId : String → Option Id`:
  `none` stands for the constructor throwing on a malformed string.
-/

namespace TransactionService

/-! ## JavaScript values -/

/-- The bound of the finite doubles: a rounded magnitude of `2 ^ 1024` or
more is an infinity. -/
def doubleLimit : Nat := 2 ^ 256 * 2 ^ 256 * 2 ^ 256 * 2 ^ 256

/-- Rounding of a natural number to the nearest double (round to nearest,
ties to even, on a 53-bit significand); `none` when the result overflows. -/
def roundToDouble (n : Nat) : Option Nat :=
  if n < 2 ^ 53 then some n
  else
    let shift := Nat.size n - 53
    let q := n / 2 ^ shift
    let r := n % 2 ^ shift
    let half := 2 ^ (shift - 1)
    let q' := if r > half || (r == half && q % 2 == 1) then q + 1 else q
    let v := q' * 2 ^ shift
    if v < doubleLimit then some v else none

/-- Whether an integer is the value of a double. -/
def isDoubleInt (i : Int) : Bool := roundToDouble i.natAbs == some i.natAbs

/-- A JavaScript Number: NaN, an infinity, or an integer that is the value
of a double. -/
inductive JSNum where
  | nan : JSNum
  | inf (neg : Bool) : JSNum
  | int (i : Int) (h : isDoubleInt i = true) : JSNum
  deriving DecidableEq

theorem roundToDouble_small (n : Nat) (h : n < 2 ^ 53) : roundToDouble n = some n := by
  unfold roundToDouble
  rw [if_pos h]

theorem roundToDouble_scaled (m k : Nat) (hm1 : 2 ^ 52 ≤ m) (hm2 : m < 2 ^ 53) (hk : 1 ≤ k)
    (hv : m * 2 ^ k < doubleLimit) : roundToDouble (m * 2 ^ k) = some (m * 2 ^ k) := by
  have hpos : 0 < 2 ^ k := Nat.two_pow_pos k
  have h2k : 2 ≤ 2 ^ k := by
    calc 2 = 2 ^ 1 := rfl
      _ ≤ 2 ^ k := Nat.pow_le_pow_right (by decide) hk
  have hbig : ¬ m * 2 ^ k < 2 ^ 53 := by
    have : 2 ^ 52 * 2 ≤ m * 2 ^ k := Nat.mul_le_mul hm1 h2k
    have e : (2 : Nat) ^ 53 = 2 ^ 52 * 2 := by norm_num
    omega
  have hsize : Nat.size (m * 2 ^ k) = 53 + k := by
    apply le_antisymm
    · rw [Nat.size_le, pow_add]
      exact Nat.mul_lt_mul_of_pos_right hm2 hpos
    · have : 52 + k < Nat.size (m * 2 ^ k) := by
        rw [Nat.lt_size, pow_add]
        exact Nat.mul_le_mul_right _ hm1
      omega
  have hshift : 53 + k - 53 = k := by omega
  have hhalf : 0 < 2 ^ (k - 1) := Nat.two_pow_pos _
  have h1 : ¬ (0 > 2 ^ (k - 1)) := by omega
  have h2 : ((0 : Nat) == 2 ^ (k - 1)) = false := by
    rw [beq_eq_false_iff_ne]; omega
  unfold roundToDouble
  rw [if_neg hbig]
  simp only [hsize, hshift, Nat.mul_div_cancel _ hpos, Nat.mul_mod_left, h1, h2,
    decide_False, Bool.false_and, Bool.or_self, Bool.false_eq_true, if_false, hv, if_true]

/-- A rounded value is a double: rounding it again changes nothing. -/
theorem roundToDouble_idem (n d : Nat) (h : roundToDouble n = some d) :
    roundToDouble d = some d := by
  by_cases hn : n < 2 ^ 53
  · rw [roundToDouble_small n hn] at h
    cases h
    exact roundToDouble_small n hn
  · have hsz : 53 < Nat.size n := by
      rw [Nat.lt_size]; omega
    have hlt : n < 2 ^ Nat.size n := Nat.lt_size_self n
    have hge : 2 ^ (Nat.size n - 1) ≤ n := by
      rw [← Nat.lt_size]; omega
    obtain ⟨k, hk⟩ : ∃ k, Nat.size n - 53 = k := ⟨_, rfl⟩
    have hk1 : 1 ≤ k := by omega
    have hpos : 0 < 2 ^ k := Nat.two_pow_pos k
    have e1 : 2 ^ Nat.size n = 2 ^ 53 * 2 ^ k := by
      rw [← pow_add]; congr 1; omega
    have e2 : 2 ^ (Nat.size n - 1) = 2 ^ 52 * 2 ^ k := by
      rw [← pow_add]; congr 1; omega
    have hq2 : n / 2 ^ k < 2 ^ 53 := by
      rw [Nat.div_lt_iff_lt_mul hpos, ← e1]; exact hlt
    have hq1 : 2 ^ 52 ≤ n / 2 ^ k := by
      rw [Nat.le_div_iff_mul_le hpos, ← e2]; exact hge
    have hup : ∀ q, 2 ^ 52 ≤ q → q < 2 ^ 53 → (q + 1) * 2 ^ k < doubleLimit →
        roundToDouble ((q + 1) * 2 ^ k) = some ((q + 1) * 2 ^ k) := by
      intro q h1 h2 hv
      by_cases hq : q + 1 < 2 ^ 53
      · exact roundToDouble_scaled _ k (by omega) hq hk1 hv
      · have hq' : q + 1 = 2 ^ 52 * 2 := by omega
        have e3 : (q + 1) * 2 ^ k = 2 ^ 52 * 2 ^ (k + 1) := by
          rw [hq', pow_succ]; ring
        rw [e3] at hv ⊢
        exact roundToDouble_scaled _ (k + 1) (le_refl _) (by norm_num) (Nat.le_add_left 1 k) hv
    unfold roundToDouble at h
    rw [if_neg hn] at h
    simp only [hk] at h
    by_cases hc : (n % 2 ^ k > 2 ^ (k - 1)
        || (n % 2 ^ k == 2 ^ (k - 1) && n / 2 ^ k % 2 == 1)) = true
    · rw [if_pos hc] at h
      by_cases hv : (n / 2 ^ k + 1) * 2 ^ k < doubleLimit
      · rw [if_pos hv] at h
        rw [← Option.some.inj h]
        exact hup _ hq1 hq2 hv
      · rw [if_neg hv] at h
        exact absurd h (by simp)
    · rw [if_neg hc] at h
      by_cases hv : n / 2 ^ k * 2 ^ k < doubleLimit
      · rw [if_pos hv] at h
        rw [← Option.some.inj h]
        exact roundToDouble_scaled _ k hq1 hq2 hk1 hv
      · rw [if_neg hv] at h
        exact absurd h (by simp)

theorem isDoubleInt_signed (neg : Bool) (v d : Nat) (h : roundToDouble v = some d) :
    isDoubleInt (if neg then -(d : Int) else (d : Int)) = true := by
  have hd := roundToDouble_idem v d h
  cases neg <;> simp [isDoubleInt, hd]

/-- The Number value of a mathematical integer given by sign and magnitude:
the nearest double, or an infinity of that sign on overflow. -/
def JSNum.ofMathInt (neg : Bool) (v : Nat) : JSNum :=
  match h : roundToDouble v with
  | none => .inf neg
  | some d => .int (if neg then -(d : Int) else (d : Int)) (isDoubleInt_signed neg v d h)

/-- The Number value of an integer, as `JSON.parse` gives it for an integer
literal. -/
def JSNum.ofInt (i : Int) : JSNum := JSNum.ofMathInt (decide (i < 0)) i.natAbs

/-- A JavaScript value as produced by `JSON.parse` (or the query-string
parser), plus `undefined` for an absent property. -/
inductive JSVal where
  | undefined : JSVal
  | null : JSVal
  | bool (b : Bool) : JSVal
  | num (n : JSNum) : JSVal
  | str (s : String) : JSVal
  | arr (elems : List JSVal) : JSVal
  | obj (fields : List (String × JSVal)) : JSVal

/-- ToBoolean: `undefined`, `null`, `false`, `0`, `NaN` and `""` are falsy,
every other value (infinities, arrays and objects included) is truthy. -/
def truthy : JSVal → Bool
  | .undefined => false
  | .null => false
  | .bool b => b
  | .num .nan => false
  | .num (.inf _) => true
  | .num (.int i _) => i != 0
  | .str s => s != ""
  | .arr _ => true
  | .obj _ => true

/-- The plain decimal numeral of an integer, with a leading `-` when it is
negative: the form in which a client writes an integer into a query string. -/
def decimalString : Int → String
  | .ofNat n => String.mk (Nat.toDigits 10 n)
  | .negSucc n => String.mk ('-' :: Nat.toDigits 10 (n + 1))

/-- Removes the zeros at the end of a digit sequence. -/
def stripTrailingZeros (ds : List Char) : List Char :=
  (ds.reverse.dropWhile (fun c => c == '0')).reverse

/-- The significant decimal digits of a natural number: its numeral without
the zeros at the end. -/
def sigDigits (v : Nat) : List Char := stripTrailingZeros (Nat.toDigits 10 v)

/-- The decimal numbers with few significant digits next to the double `x`:
for every power of ten, the two multiples of it that enclose `x`, kept when
they round to `x`. -/
def roundTripCandidates (x : Nat) : List Nat :=
  ((List.range ((Nat.toDigits 10 x).length + 1)).flatMap fun m =>
      [x / 10 ^ m * 10 ^ m, x / 10 ^ m * 10 ^ m + 10 ^ m]).filter
    fun v => v != 0 && roundToDouble v == some x

/-- Distance of two natural numbers. -/
def distance (v x : Nat) : Nat := if v ≤ x then x - v else v - x

/-- Whether the last digit of a digit sequence is even. -/
def lastDigitEven (ds : List Char) : Bool :=
  match ds.getLast? with
  | some c => c.toNat % 2 == 0
  | none => true

/-- The preference of Number::toString among the decimals that round to `x`:
fewer significant digits, then closer to `x`, then an even last digit. -/
def betterCandidate (x a b : Nat) : Bool :=
  (sigDigits a).length < (sigDigits b).length
    || ((sigDigits a).length == (sigDigits b).length
      && (distance a x < distance b x
        || (distance a x == distance b x
          && lastDigitEven (sigDigits a) && !lastDigitEven (sigDigits b))))

/-- The decimal that Number::toString prints for the double `x`: the one
with the fewest significant digits among those that round to `x`.  Below
`2 ^ 53` neighbouring doubles are at most 1 apart, so it is `x` itself. -/
def shortestDecimal (x : Nat) : Nat :=
  if x < 2 ^ 53 then x
  else
    (roundTripCandidates x).foldl (fun best v => if betterCandidate x v best then v else best) x

/-- Number::toString(x, 10) for a natural number that is a double: the
shortest decimal that rounds to it, written as a plain numeral below
`10 ^ 21` and in exponent form from there on (the significant digits with a
point after the first one, then `e+` and the decimal exponent). -/
def natToString (x : Nat) : List Char :=
  let v := shortestDecimal x
  if v < 10 ^ 21 then Nat.toDigits 10 v
  else
    match sigDigits v with
    | [] => Nat.toDigits 10 v
    | [d] => d :: 'e' :: '+' :: Nat.toDigits 10 ((Nat.toDigits 10 v).length - 1)
    | d :: rest =>
      d :: '.' :: rest ++ 'e' :: '+' :: Nat.toDigits 10 ((Nat.toDigits 10 v).length - 1)

/-- Number::toString(x, 10). -/
def numToString : JSNum → String
  | .nan => "NaN"
  | .inf false => "Infinity"
  | .inf true => "-Infinity"
  | .int i _ => String.mk (if i < 0 then '-' :: natToString i.natAbs else natToString i.natAbs)

/-- Joins the string forms of array elements with commas
(`Array.prototype.join`). -/
def joinComma : List String → String
  | [] => ""
  | [s] => s
  | s :: rest => s ++ "," ++ joinComma rest

/-- Whether a parsed object has an own property `toString`.  Its value is
never callable, so OrdinaryToPrimitive skips it, gets the object itself back
from `Object.prototype.valueOf` (or skips an own `valueOf` as well) and
throws a TypeError. -/
def hasOwnToString (fields : List (String × JSVal)) : Bool :=
  fields.any (fun f => f.1 == "toString")

mutual
/-- ToString of a value, `none` when the conversion throws a TypeError.
`Array.prototype.toString` joins the elements with commas, an element that
is `undefined` or `null` giving the empty string; a plain object gives
`[object Object]`, and throws when it has an own property `toString`. -/
def jsToString : JSVal → Option String
  | .undefined => some "undefined"
  | .null => some "null"
  | .bool true => some "true"
  | .bool false => some "false"
  | .num n => some (numToString n)
  | .str s => some s
  | .arr elems =>
    match elemStrings elems with
    | some strs => some (joinComma strs)
    | none => none
  | .obj fields => if hasOwnToString fields then none else some "[object Object]"
/-- String forms of the elements of an array, as `join` takes them. -/
def elemStrings : List JSVal → Option (List String)
  | [] => some []
  | .undefined :: rest =>
    match elemStrings rest with
    | some strs => some ("" :: strs)
    | none => none
  | .null :: rest =>
    match elemStrings rest with
    | some strs => some ("" :: strs)
    | none => none
  | v :: rest =>
    match jsToString v, elemStrings rest with
    | some s, some strs => some (s :: strs)
    | _, _ => none
end

/-- StrWhiteSpaceChar of ECMA-262: WhiteSpace and LineTerminator code
points. -/
def isStrWhiteSpace (c : Char) : Bool :=
  let n := c.toNat
  n == 0x09 || n == 0x0A || n == 0x0B || n == 0x0C || n == 0x0D || n == 0x20
    || n == 0xA0 || n == 0x1680 || (0x2000 ≤ n && n ≤ 0x200A)
    || n == 0x2028 || n == 0x2029 || n == 0x202F || n == 0x205F
    || n == 0x3000 || n == 0xFEFF

/-- Radix-10 digit test. -/
def isDecDigit (c : Char) : Bool := '0'.toNat ≤ c.toNat && c.toNat ≤ '9'.toNat

/-- Value of the longest prefix of decimal digits, with the number of digits
read (zero when the text does not start with a digit). -/
def readDigits : List Char → Nat → Nat → Nat × Nat
  | [], acc, k => (acc, k)
  | c :: cs, acc, k =>
    if isDecDigit c then readDigits cs (acc * 10 + (c.toNat - '0'.toNat)) (k + 1)
    else (acc, k)

/-- An optional leading sign: whether it is a minus, and the text after it. -/
def takeSign : List Char → Bool × List Char
  | '-' :: r => (true, r)
  | '+' :: r => (false, r)
  | r => (false, r)

/-- The steps of `parseInt(string, 10)` on the string form: skip leading
white space, take an optional sign, read the longest run of decimal digits;
NaN when that run is empty, otherwise the Number value of the integer read
(the nearest double, an infinity on overflow). -/
def parseIntChars (cs : List Char) : JSNum :=
  let s := cs.dropWhile isStrWhiteSpace
  let (neg, rest) := takeSign s
  let (v, k) := readDigits rest 0 0
  if k == 0 then .nan else JSNum.ofMathInt neg v

/-- Value of a run of decimal digits read left to right from `acc`. -/
def digitsValue (acc : Nat) (cs : List Char) : Nat :=
  cs.foldl (fun a c => a * 10 + (c.toNat - '0'.toNat)) acc

/-- `parseInt(v, 10)`: `none` when the conversion of `v` to a string throws. -/
def parseInt (v : JSVal) : Option JSNum :=
  match jsToString v with
  | some s => some (parseIntChars s.data)
  | none => none

mutual
/-- Structural equality of values (same type, same content, object keys in
the same order): the comparison the store applies to decide whether a
`$set` changes a stored value. -/
def JSVal.beq : JSVal → JSVal → Bool
  | .undefined, .undefined => true
  | .null, .null => true
  | .bool a, .bool b => a == b
  | .num a, .num b => a == b
  | .str a, .str b => a == b
  | .arr a, .arr b => beqList a b
  | .obj a, .obj b => beqFields a b
  | _, _ => false
/-- Structural equality of arrays. -/
def beqList : List JSVal → List JSVal → Bool
  | [], [] => true
  | x :: xs, y :: ys => x.beq y && beqList xs ys
  | _, _ => false
/-- Structural equality of property lists. -/
def beqFields : List (String × JSVal) → List (String × JSVal) → Bool
  | [], [] => true
  | (k, x) :: xs, (l, y) :: ys => k == l && x.beq y && beqFields xs ys
  | _, _ => false
end

/-- A parsed JSON object (`req.body`) or parsed query string (`req.query`):
its own properties. -/
abbrev JSObject := List (String × JSVal)

/-- Property read, as in `const { k } = o`: `undefined` when the object has
no such property. -/
def getProp (o : JSObject) (k : String) : JSVal :=
  match o.lookup k with
  | some v => v
  | none => .undefined

/-- `xs.includes(v)` for an array `xs` of string literals: SameValueZero, so
only a string equal to one of them is included. -/
def includes (xs : List String) (v : JSVal) : Bool :=
  match v with
  | .str s => xs.contains s
  | _ => false

/-! ## The `transactions` collection -/

/-- Milliseconds since the epoch, the value of a `Date`. -/
abbrev Time := Int

/-- A document of the `transactions` collection. -/
structure Transaction (Id : Type) where
  _id : Id
  amount : JSVal
  transaction_type : JSVal
  user : JSNum
  timestamp : Time
  status : JSVal

/-- The object `newTransaction` built by the create handler, before the
driver gives it an `_id`. -/
structure NewTransaction where
  amount : JSVal
  transaction_type : JSVal
  user : JSNum
  timestamp : Time
  status : JSVal

/-- The collection: its documents in natural order. -/
abbrev Store (Id : Type) := List (Transaction Id)

section Handlers

variable {Id : Type} [DecidableEq Id]

/-- `insertOne(doc)`: the driver gives the document the generated id `oid`;
the insert is refused when a document with that `_id` exists (unique `_id`
index), otherwise the document is appended and `insertedId` is `oid`. -/
def insertOne (oid : Id) (doc : NewTransaction) (db : Store Id) : Except String (Store Id) :=
  if db.any (fun d => d._id == oid) then .error "E11000 duplicate key error"
  else .ok (db ++ [⟨oid, doc.amount, doc.transaction_type, doc.user, doc.timestamp, doc.status⟩])

/-- `find({ user: userId }).toArray()`. -/
def find (db : Store Id) (userId : JSNum) : List (Transaction Id) :=
  db.filter (fun d => d.user == userId)

/-- `findOne({ _id: oid })`: the first document with that id, `none` for
`null`. -/
def findOne (db : Store Id) (oid : Id) : Option (Transaction Id) :=
  db.find? (fun d => d._id == oid)

/-- The outcome of `updateOne`: the collection afterwards and the
`modifiedCount` of the driver's result. -/
structure UpdateResult (Id : Type) where
  store : Store Id
  modifiedCount : Nat

/-- `updateOne({ _id: oid }, { $set: { status } })`.  The first document with
the id is the one matched; it counts as modified only when its stored status
differs from the new one. -/
def updateOne : Store Id → Id → JSVal → UpdateResult Id
  | [], _, _ => ⟨[], 0⟩
  | d :: rest, oid, status =>
    if d._id == oid then
      if d.status.beq status then ⟨d :: rest, 0⟩
      else ⟨{ d with status := status } :: rest, 1⟩
    else
      let r := updateOne rest oid status
      ⟨d :: r.store, r.modifiedCount⟩

/-! ## Responses -/

/-- The object sent by the create handler on success. -/
structure CreatedBody (Id : Type) where
  transaction_id : Id
  amount : JSVal
  transaction_type : JSVal
  user : JSNum
  timestamp : Time
  status : JSVal

/-- The argument of `res.json(...)`. -/
inductive ResBody (Id : Type) where
  | error (error : String) : ResBody Id
  | created (c : CreatedBody Id) : ResBody Id
  | transactions (transactions : List (Transaction Id)) : ResBody Id
  | doc (d : Option (Transaction Id)) : ResBody Id

/-- An HTTP response: `res.status(status).json(json)`. -/
structure Response (Id : Type) where
  status : Nat
  json : ResBody Id

/-! ## The route handlers -/

/-- `POST /api/transactions`.  `now` is the value of `new Date()` and `oid`
the id the driver generates for the inserted document.  An exception thrown
inside the `try` block is caught and answered with 500. -/
def createTransaction (now : Time) (oid : Id) (body : JSObject) (db : Store Id) :
    Response Id × Store Id :=
  let amount := getProp body "amount"
  let transaction_type := getProp body "transaction_type"
  let user := getProp body "user"
  if !truthy amount || !truthy transaction_type || !truthy user then
    (⟨400, .error "Missing required fields"⟩, db)
  else
    match parseInt user with
    | none => (⟨500, .error "Error creating transaction"⟩, db)
    | some userId =>
      let newTransaction : NewTransaction :=
        ⟨amount, transaction_type, userId, now, .str "PENDING"⟩
      match insertOne oid newTransaction db with
      | .ok db' =>
        (⟨201, .created ⟨oid, amount, transaction_type, userId, newTransaction.timestamp,
          .str "PENDING"⟩⟩, db')
      | .error _ => (⟨500, .error "Error creating transaction"⟩, db)

/-- `GET /api/transactions`. -/
def listTransactions (query : JSObject) (db : Store Id) : Response Id × Store Id :=
  let user_id := getProp query "user_id"
  match parseInt user_id with
  | none => (⟨500, .error "Error fetching transactions"⟩, db)
  | some userId =>
    if !truthy (.num userId) then
      (⟨400, .error "User ID is required and must be an integer"⟩, db)
    else
      let transactions := find db userId
      (⟨200, .transactions transactions⟩, db)

/-- `PUT /api/transactions/:id`. -/
def updateStatus (mkObjectId : String → Option Id) (id : String) (body : JSObject)
    (db : Store Id) : Response Id × Store Id :=
  let status := getProp body "status"
  if !truthy status || !includes ["COMPLETED", "FAILED"] status then
    (⟨400, .error "Invalid status"⟩, db)
  else
    match mkObjectId id with
    | none => (⟨500, .error "Error updating transaction status"⟩, db)
    | some oid =>
      let result := updateOne db oid status
      if result.modifiedCount == 0 then
        (⟨404, .error "Transaction not found"⟩, result.store)
      else
        match mkObjectId id with
        | none => (⟨500, .error "Error updating transaction status"⟩, result.store)
        | some oid' => (⟨200, .doc (findOne result.store oid')⟩, result.store)

/-- `GET /api/transactions/:id`. -/
def getTransaction (mkObjectId : String → Option Id) (id : String) (db : Store Id) :
    Response Id × Store Id :=
  match mkObjectId id with
  | none => (⟨500, .error "Error fetching transaction"⟩, db)
  | some oid =>
    match findOne db oid with
    | none => (⟨404, .error "Transaction not found"⟩, db)
    | some transaction => (⟨200, .doc (some transaction)⟩, db)

/-! ## Request sequences -/

/-- A request to one of the four routes, with the environment inputs of the
create handler. -/
inductive Request (Id : Type) where
  | create (now : Time) (oid : Id) (body : JSObject) : Request Id
  | list (query : JSObject) : Request Id
  | update (id : String) (body : JSObject) : Request Id
  | get (id : String) : Request Id

/-- Dispatch of a request to its handler. -/
def handle (mkObjectId : String → Option Id) : Request Id → Store Id → Response Id × Store Id
  | .create now oid body, db => createTransaction now oid body db
  | .list query, db => listTransactions query db
  | .update id body, db => updateStatus mkObjectId id body db
  | .get id, db => getTransaction mkObjectId id db

/-- The collection after serving the requests in order. -/
def serve (mkObjectId : String → Option Id) : List (Request Id) → Store Id → Store Id
  | [], db => db
  | r :: rs, db => serve mkObjectId rs (handle mkObjectId r db).2

end Handlers

/-! ## A concrete `ObjectId` -/

/-- Hexadecimal digit test. -/
def isHexDigit (c : Char) : Bool :=
  ('0'.toNat ≤ c.toNat && c.toNat ≤ '9'.toNat)
    || ('a'.toNat ≤ c.toNat && c.toNat ≤ 'f'.toNat)
    || ('A'.toNat ≤ c.toNat && c.toNat ≤ 'F'.toNat)

/-- `new ObjectId(s)` for a string argument, as the current driver does it: a
string of 24 hexadecimal digits is accepted and read case-insensitively,
anything else is refused. -/
def hexObjectId (s : String) : Option (List Char) :=
  if s.data.length == 24 && s.data.all isHexDigit then some (s.data.map Char.toLower)
  else none

/-! ## Inputs used by the concrete checks -/

/-- A well-formed id string. -/
def sampleIdString : String := "507f1f77bcf86cd799439011"

/-- The `ObjectId` of `sampleIdString`. -/
def sampleId : List Char := sampleIdString.data

/-- A second well-formed id string. -/
def otherIdString : String := "507f191e810c19729de860ea"

/-- The `ObjectId` of `otherIdString`. -/
def otherId : List Char := otherIdString.data

/-- The scenario body of the spec:
`{amount: 50, transaction_type: "deposit", user: "7"}`. -/
def depositBody : JSObject :=
  [("amount", .num (.ofInt 50)), ("transaction_type", .str "deposit"), ("user", .str "7")]

/-- The document the scenario body creates at time `1000` under `sampleId`. -/
def depositDoc : Transaction (List Char) :=
  ⟨sampleId, .num (.ofInt 50), .str "deposit", .ofInt 7, 1000, .str "PENDING"⟩

/-- A create body whose user is the string `"0"`. -/
def userZeroBody : JSObject :=
  [("amount", .num (.ofInt 50)), ("transaction_type", .str "deposit"), ("user", .str "0")]

/-- The document `userZeroBody` creates at time `2000` under `otherId`. -/
def userZeroDoc : Transaction (List Char) :=
  ⟨otherId, .num (.ofInt 50), .str "deposit", .ofInt 0, 2000, .str "PENDING"⟩

/-- A create body whose user is the string `"7abc"`. -/
def userTextBody : JSObject :=
  [("amount", .num (.ofInt 50)), ("transaction_type", .str "deposit"), ("user", .str "7abc")]

/-- A create body whose user is the string `"abc"`. -/
def userNameBody : JSObject :=
  [("amount", .num (.ofInt 50)), ("transaction_type", .str "deposit"), ("user", .str "abc")]

/-- A create body whose user is the object `{toString: 1}`. -/
def userObjectBody : JSObject :=
  [("amount", .num (.ofInt 50)), ("transaction_type", .str "deposit"),
    ("user", .obj [("toString", .num (.ofInt 1))])]

/-- The scenario of the spec: create, complete, list, get. -/
def scenario : List (Request (List Char)) :=
  [.create 1000 sampleId depositBody,
   .update sampleIdString [("status", .str "COMPLETED")],
   .list [("user_id", .str "7")],
   .get sampleIdString]

/-- The status vocabulary. -/
def ValidStatus (v : JSVal) : Prop :=
  v = .str "PENDING" ∨ v = .str "COMPLETED" ∨ v = .str "FAILED"

/-! ## Equality of values -/

mutual
theorem JSVal.beq_eq : ∀ a b : JSVal, a.beq b = true → a = b
  | .undefined, b => by cases b <;> simp [JSVal.beq]
  | .null, b => by cases b <;> simp [JSVal.beq]
  | .bool x, b => by cases b <;> simp [JSVal.beq]
  | .num x, b => by cases b <;> simp [JSVal.beq]
  | .str x, b => by cases b <;> simp [JSVal.beq]
  | .arr x, b => by
    cases b <;> simp [JSVal.beq]
    exact beqList_eq x _
  | .obj x, b => by
    cases b <;> simp [JSVal.beq]
    exact beqFields_eq x _
theorem beqList_eq : ∀ a b : List JSVal, beqList a b = true → a = b
  | [], b => by cases b <;> simp [beqList]
  | x :: xs, b => by
    cases b with
    | nil => simp [beqList]
    | cons y ys =>
      simp only [beqList, Bool.and_eq_true]
      intro h
      rw [JSVal.beq_eq x y h.1, beqList_eq xs ys h.2]
theorem beqFields_eq : ∀ a b : List (String × JSVal), beqFields a b = true → a = b
  | [], b => by cases b <;> simp [beqFields]
  | (k, x) :: xs, b => by
    cases b with
    | nil => simp [beqFields]
    | cons y ys =>
      obtain ⟨l, y⟩ := y
      simp only [beqFields, Bool.and_eq_true, beq_iff_eq]
      intro h
      rw [h.1.1, JSVal.beq_eq x y h.1.2, beqFields_eq xs ys h.2]
end

mutual
theorem JSVal.beq_refl : ∀ a : JSVal, a.beq a = true
  | .undefined => by simp [JSVal.beq]
  | .null => by simp [JSVal.beq]
  | .bool x => by simp [JSVal.beq]
  | .num x => by simp [JSVal.beq]
  | .str x => by simp [JSVal.beq]
  | .arr x => by simp [JSVal.beq, beqList_refl x]
  | .obj x => by simp [JSVal.beq, beqFields_refl x]
theorem beqList_refl : ∀ a : List JSVal, beqList a a = true
  | [] => by simp [beqList]
  | x :: xs => by simp [beqList, JSVal.beq_refl x, beqList_refl xs]
theorem beqFields_refl : ∀ a : List (String × JSVal), beqFields a a = true
  | [] => by simp [beqFields]
  | (k, x) :: xs => by simp [beqFields, JSVal.beq_refl x, beqFields_refl xs]
end

theorem JSVal.beq_iff (a b : JSVal) : a.beq b = true ↔ a = b :=
  ⟨JSVal.beq_eq a b, fun e => e ▸ JSVal.beq_refl a⟩

instance : DecidableEq JSVal := fun a b =>
  if h : a.beq b = true then isTrue (JSVal.beq_eq a b h)
  else isFalse (fun e => h (e ▸ JSVal.beq_refl a))

instance {Id : Type} [DecidableEq Id] : DecidableEq (Transaction Id) := fun a b =>
  if h : a._id = b._id ∧ a.amount = b.amount ∧ a.transaction_type = b.transaction_type
      ∧ a.user = b.user ∧ a.timestamp = b.timestamp ∧ a.status = b.status then
    isTrue (by
      cases a; cases b
      simp only [Transaction.mk.injEq]
      exact h)
  else isFalse (fun e => h (by subst e; simp))

/-! ## Truthiness and property reads -/

/-- The falsy values are exactly `undefined`, `null`, `false`, `0`, `NaN`
and the empty string. -/
theorem truthy_eq_false_iff (v : JSVal) :
    truthy v = false ↔
      v = .undefined ∨ v = .null ∨ v = .bool false ∨ v = .num (.ofInt 0)
        ∨ v = .num .nan ∨ v = .str "" := by
  have hzero : JSNum.ofInt 0 = .int 0 rfl := rfl
  cases v with
  | undefined => simp [truthy]
  | null => simp [truthy]
  | bool b => cases b <;> simp [truthy]
  | num n =>
    cases n with
    | nan => simp [truthy]
    | inf neg => simp [truthy, hzero]
    | int i h => simp [truthy, hzero]
  | str s => simp [truthy]
  | arr e => simp [truthy]
  | obj f => simp [truthy]

/-- An absent property reads as `undefined`. -/
theorem getProp_absent (o : JSObject) (k : String) (h : o.lookup k = none) :
    getProp o k = .undefined := by
  simp [getProp, h]

/-- Only the two string literals pass the status check of the update
handler. -/
theorem status_check_iff (v : JSVal) :
    (!truthy v || !includes ["COMPLETED", "FAILED"] v) = false ↔
      v = .str "COMPLETED" ∨ v = .str "FAILED" := by
  cases v with
  | undefined => simp [truthy]
  | null => simp [truthy]
  | bool b => cases b <;> simp [truthy, includes]
  | num n => cases n <;> simp [truthy, includes]
  | str s =>
    simp only [truthy, includes, JSVal.str.injEq]
    constructor
    · intro h
      simp at h
      exact or_iff_not_imp_left.2 h.2
    · intro h
      rcases h with h | h <;> subst h <;> decide
  | arr e => simp [truthy, includes]
  | obj f => simp [truthy, includes]

/-! ## The collection operations -/

section StoreLemmas

variable {Id : Type} [DecidableEq Id]

theorem findOne_eq_none_iff (db : Store Id) (oid : Id) :
    findOne db oid = none ↔ ∀ d ∈ db, d._id ≠ oid := by
  simp [findOne, List.find?_eq_none]

theorem findOne_some_mem {db : Store Id} {oid : Id} {t : Transaction Id}
    (h : findOne db oid = some t) : t ∈ db ∧ t._id = oid := by
  unfold findOne at h
  exact ⟨List.mem_of_find?_eq_some h, by simpa using List.find?_some h⟩

theorem findOne_isSome_of_mem {db : Store Id} {oid : Id} {t : Transaction Id}
    (hmem : t ∈ db) (hid : t._id = oid) : ∃ d, findOne db oid = some d := by
  cases h : findOne db oid with
  | none => exact absurd hid ((findOne_eq_none_iff db oid).1 h t hmem)
  | some d => exact ⟨d, rfl⟩

theorem insertOne_fresh (oid : Id) (doc : NewTransaction) (db : Store Id)
    (hfresh : ∀ d ∈ db, d._id ≠ oid) :
    insertOne oid doc db =
      .ok (db ++ [⟨oid, doc.amount, doc.transaction_type, doc.user, doc.timestamp,
        doc.status⟩]) := by
  unfold insertOne
  rw [if_neg]
  simpa using hfresh

theorem findOne_append_new (db : Store Id) (t : Transaction Id)
    (hfresh : ∀ d ∈ db, d._id ≠ t._id) : findOne (db ++ [t]) t._id = some t := by
  unfold findOne
  rw [List.find?_append]
  have : List.find? (fun d => d._id == t._id) db = none := by
    simpa [List.find?_eq_none] using hfresh
  simp [this]

end StoreLemmas

section UpdateLemmas
variable {Id : Type} [DecidableEq Id]

theorem updateOne_no_match (db : Store Id) (oid : Id) (s : JSVal)
    (h : ∀ d ∈ db, d._id ≠ oid) : updateOne db oid s = ⟨db, 0⟩ := by
  induction db with
  | nil => rfl
  | cons d rest ih =>
    have hd : (d._id == oid) = false := by simpa using h d (List.mem_cons_self _ _)
    have hrest := ih (fun x hx => h x (List.mem_cons_of_mem _ hx))
    simp [updateOne, hd, hrest]

theorem updateOne_same_status (db : Store Id) (oid : Id) (s : JSVal) (d : Transaction Id)
    (hfind : findOne db oid = some d) (hsame : d.status = s) :
    updateOne db oid s = ⟨db, 0⟩ := by
  induction db with
  | nil => simp [findOne] at hfind
  | cons x rest ih =>
    by_cases hx : x._id = oid
    · have hxd : x = d := by simpa [findOne, hx] using hfind
      subst hxd
      simp [updateOne, hx, hsame, JSVal.beq_refl]
    · have hfind' : findOne rest oid = some d := by simpa [findOne, hx] using hfind
      simp [updateOne, hx, ih hfind']

theorem updateOne_changes_status (db : Store Id) (oid : Id) (s : JSVal) (d : Transaction Id)
    (hfind : findOne db oid = some d) (hne : d.status ≠ s) :
    ∃ pre post, db = pre ++ d :: post ∧ (∀ x ∈ pre, x._id ≠ oid)
      ∧ updateOne db oid s = ⟨pre ++ { d with status := s } :: post, 1⟩ := by
  induction db with
  | nil => simp [findOne] at hfind
  | cons x rest ih =>
    by_cases hx : x._id = oid
    · have hxd : x = d := by simpa [findOne, hx] using hfind
      subst hxd
      have hb : x.status.beq s = false := by
        cases hb : x.status.beq s with
        | false => rfl
        | true => exact absurd (JSVal.beq_eq _ _ hb) hne
      exact ⟨[], rest, rfl, by simp, by simp [updateOne, hx, hb]⟩
    · have hfind' : findOne rest oid = some d := by simpa [findOne, hx] using hfind
      obtain ⟨pre, post, hdb, hpre, hup⟩ := ih hfind'
      refine ⟨x :: pre, post, by simp [hdb], ?_, ?_⟩
      · intro y hy
        rcases List.mem_cons.1 hy with rfl | hy
        · exact hx
        · exact hpre y hy
      · simp [updateOne, hx, hup]

theorem findOne_updated (pre post : Store Id) (d : Transaction Id) (oid : Id)
    (hpre : ∀ x ∈ pre, x._id ≠ oid) (hd : d._id = oid) :
    findOne (pre ++ d :: post) oid = some d := by
  unfold findOne
  rw [List.find?_append]
  have : List.find? (fun x => x._id == oid) pre = none := by
    simpa [List.find?_eq_none] using hpre
  simp [this, hd]

end UpdateLemmas

section UpdateHandlerLemmas
variable {Id : Type} [DecidableEq Id]

theorem updateStatus_valid (mkObjectId : String → Option Id) (id : String) (body : JSObject)
    (db : Store Id) (oid : Id) (s : String) (hs : s = "COMPLETED" ∨ s = "FAILED")
    (hbody : getProp body "status" = .str s) (hid : mkObjectId id = some oid) :
    updateStatus mkObjectId id body db =
      if (updateOne db oid (.str s)).modifiedCount == 0 then
        (⟨404, .error "Transaction not found"⟩, (updateOne db oid (.str s)).store)
      else
        (⟨200, .doc (findOne (updateOne db oid (.str s)).store oid)⟩,
          (updateOne db oid (.str s)).store) := by
  have h : (!truthy (getProp body "status")
      || !includes ["COMPLETED", "FAILED"] (getProp body "status")) = false := by
    rw [status_check_iff, hbody]
    rcases hs with h | h <;> simp [h]
  rw [hbody] at h
  simp only [updateStatus, hbody, h, Bool.false_eq_true, if_false, hid]

end UpdateHandlerLemmas

theorem listTransactions_store {Id : Type} (query : JSObject) (db : Store Id) :
    (listTransactions query db).2 = db := by
  simp only [listTransactions]
  split
  · rfl
  · split <;> rfl

section InvariantLemmas
variable {Id : Type} [DecidableEq Id]

theorem updateOne_mem (db : Store Id) (oid : Id) (s : JSVal) (x : Transaction Id)
    (hx : x ∈ (updateOne db oid s).store) : x ∈ db ∨ x.status = s := by
  induction db with
  | nil => simp [updateOne] at hx
  | cons d rest ih =>
    unfold updateOne at hx
    by_cases hd : d._id = oid
    · by_cases hb : d.status.beq s = true
      · simp only [hd, beq_self_eq_true, if_true, hb] at hx
        exact Or.inl hx
      · simp only [hd, beq_self_eq_true, if_true, hb] at hx
        rcases List.mem_cons.1 hx with rfl | hx
        · exact Or.inr rfl
        · exact Or.inl (List.mem_cons_of_mem _ hx)
    · have hd' : (d._id == oid) = false := by simpa using hd
      simp only [hd', Bool.false_eq_true, if_false] at hx
      rcases List.mem_cons.1 hx with rfl | hx
      · exact Or.inl (List.mem_cons_self _ _)
      · rcases ih hx with h | h
        · exact Or.inl (List.mem_cons_of_mem _ h)
        · exact Or.inr h

theorem createTransaction_store (now : Time) (oid : Id) (body : JSObject) (db : Store Id) :
    ((createTransaction now oid body db).1.status ≠ 201
        ∧ (createTransaction now oid body db).2 = db)
      ∨ ((createTransaction now oid body db).1.status = 201
        ∧ ∃ t : Transaction Id, (createTransaction now oid body db).2 = db ++ [t]
          ∧ t._id = oid ∧ t.amount = getProp body "amount"
          ∧ t.transaction_type = getProp body "transaction_type"
          ∧ parseInt (getProp body "user") = some t.user
          ∧ t.timestamp = now ∧ t.status = .str "PENDING"
          ∧ ∀ d ∈ db, d._id ≠ oid) := by
  unfold createTransaction
  by_cases hv : (!truthy (getProp body "amount") || !truthy (getProp body "transaction_type")
      || !truthy (getProp body "user")) = true
  · simp [hv]
  · cases hp : parseInt (getProp body "user") with
    | none => simp [hv, hp]
    | some userId =>
      by_cases hdup : db.any (fun d => d._id == oid) = true
      · simp [hv, hp, insertOne, hdup]
      · right
        have hfresh : ∀ d ∈ db, d._id ≠ oid := by simpa using hdup
        simp only [hv, hp, if_false, insertOne, hdup, Bool.false_eq_true]
        exact ⟨trivial, _, rfl, rfl, rfl, rfl, rfl, rfl, rfl, hfresh⟩

theorem updateStatus_store (mkObjectId : String → Option Id) (id : String) (body : JSObject)
    (db : Store Id) :
    (updateStatus mkObjectId id body db).2 = db
      ∨ ∃ oid s, (s = "COMPLETED" ∨ s = "FAILED")
          ∧ (updateStatus mkObjectId id body db).2 = (updateOne db oid (.str s)).store := by
  cases hchk : (!truthy (getProp body "status")
      || !includes ["COMPLETED", "FAILED"] (getProp body "status")) with
  | true => simp [updateStatus, hchk]
  | false =>
    have hv := (status_check_iff _).1 hchk
    obtain ⟨s, hs, hbody⟩ : ∃ s, (s = "COMPLETED" ∨ s = "FAILED")
        ∧ getProp body "status" = .str s := by
      rcases hv with h | h
      · exact ⟨"COMPLETED", Or.inl rfl, h⟩
      · exact ⟨"FAILED", Or.inr rfl, h⟩
    cases hid : mkObjectId id with
    | none => simp [updateStatus, hchk, hid]
    | some oid =>
      right
      refine ⟨oid, s, hs, ?_⟩
      rw [updateStatus_valid mkObjectId id body db oid s hs hbody hid]
      split <;> rfl

theorem getTransaction_store (mkObjectId : String → Option Id) (id : String) (db : Store Id) :
    (getTransaction mkObjectId id db).2 = db := by
  unfold getTransaction
  split
  · rfl
  · split <;> rfl

theorem handle_preserves_status (mkObjectId : String → Option Id) (r : Request Id)
    (db : Store Id) (h : ∀ d ∈ db, ValidStatus d.status) :
    ∀ d ∈ (handle mkObjectId r db).2, ValidStatus d.status := by
  cases r with
  | create now oid body =>
    simp only [handle]
    rcases createTransaction_store now oid body db with ⟨_, hs⟩ | ⟨_, t, hs, _, _, _, _, _, ht, _⟩
    · rw [hs]; exact h
    · rw [hs]
      intro d hd
      rcases List.mem_append.1 hd with hd | hd
      · exact h d hd
      · rw [List.mem_singleton] at hd
        subst hd
        exact Or.inl ht
  | list query =>
    simp only [handle, listTransactions_store]
    exact h
  | update id body =>
    simp only [handle]
    rcases updateStatus_store mkObjectId id body db with hs | ⟨oid, s, hv, hs⟩
    · rw [hs]; exact h
    · rw [hs]
      intro d hd
      rcases updateOne_mem db oid _ d hd with hd | hd
      · exact h d hd
      · rcases hv with rfl | rfl
        · exact Or.inr (Or.inl hd)
        · exact Or.inr (Or.inr hd)
  | get id =>
    simp only [handle, getTransaction_store]
    exact h

theorem serve_preserves_status (mkObjectId : String → Option Id) (reqs : List (Request Id)) :
    ∀ db : Store Id, (∀ d ∈ db, ValidStatus d.status) →
      ∀ d ∈ serve mkObjectId reqs db, ValidStatus d.status := by
  induction reqs with
  | nil => intro db h; exact h
  | cons r rs ih =>
    intro db h
    exact ih _ (handle_preserves_status mkObjectId r db h)

end InvariantLemmas

/-! ## `parseInt` on decimal numerals -/

section ParseLemmas

theorem digitChar_isDecDigit (m : Nat) (h : m < 10) :
    isDecDigit (Nat.digitChar m) = true ∧ (Nat.digitChar m).toNat - '0'.toNat = m := by
  interval_cases m <;> decide

theorem readDigits_append (pre rest : List Char) (h : ∀ c ∈ pre, isDecDigit c = true) :
    ∀ acc k, readDigits (pre ++ rest) acc k
      = readDigits rest (digitsValue acc pre) (k + pre.length) := by
  induction pre with
  | nil => intro acc k; simp [digitsValue]
  | cons c cs ih =>
    intro acc k
    have hc := h c (List.mem_cons_self _ _)
    have ih' := ih (fun x hx => h x (List.mem_cons_of_mem _ hx))
    rw [List.cons_append, readDigits, if_pos hc, ih']
    simp only [digitsValue, List.foldl_cons, List.length_cons]
    rw [show k + 1 + cs.length = k + (cs.length + 1) by omega]

theorem toDigitsCore_spec (fuel : Nat) : ∀ (n : Nat) (ds : List Char), n < fuel →
    ∃ pre, Nat.toDigitsCore 10 fuel n ds = pre ++ ds ∧ pre ≠ []
      ∧ (∀ c ∈ pre, isDecDigit c = true) ∧ digitsValue 0 pre = n := by
  induction fuel with
  | zero => intro n ds h; omega
  | succ fuel ih =>
    intro n ds h
    have hd := digitChar_isDecDigit (n % 10) (Nat.mod_lt _ (by decide))
    unfold Nat.toDigitsCore
    by_cases h0 : n / 10 = 0
    · refine ⟨[Nat.digitChar (n % 10)], by simp [h0], by simp, ?_, ?_⟩
      · intro c hc
        rw [List.mem_singleton] at hc
        rw [hc]; exact hd.1
      · simp only [digitsValue, List.foldl_cons, List.foldl_nil, hd.2]
        omega
    · have hlt : n / 10 < fuel := by omega
      obtain ⟨pre, hpre, _, hdig, hval⟩ := ih (n / 10) (Nat.digitChar (n % 10) :: ds) hlt
      refine ⟨pre ++ [Nat.digitChar (n % 10)], by simp [h0, hpre], by simp, ?_, ?_⟩
      · intro c hc
        rcases List.mem_append.1 hc with hc | hc
        · exact hdig c hc
        · rw [List.mem_singleton] at hc
          rw [hc]; exact hd.1
      · unfold digitsValue at hval ⊢
        rw [List.foldl_append, hval]
        simp only [List.foldl_cons, List.foldl_nil, hd.2]
        omega

theorem toDigits_spec (n : Nat) :
    Nat.toDigits 10 n ≠ [] ∧ (∀ c ∈ Nat.toDigits 10 n, isDecDigit c = true)
      ∧ readDigits (Nat.toDigits 10 n) 0 0 = (n, (Nat.toDigits 10 n).length) := by
  obtain ⟨pre, hpre, hne, hdig, hval⟩ := toDigitsCore_spec (n + 1) n [] (Nat.lt_succ_self n)
  unfold Nat.toDigits
  rw [hpre, List.append_nil]
  refine ⟨hne, hdig, ?_⟩
  have := readDigits_append pre [] hdig 0 0
  rw [List.append_nil] at this
  rw [this, hval]
  simp [readDigits]

theorem isDecDigit_bounds (c : Char) (h : isDecDigit c = true) :
    48 ≤ c.toNat ∧ c.toNat ≤ 57 := by
  unfold isDecDigit at h
  simp only [Bool.and_eq_true, decide_eq_true_eq] at h
  exact h

theorem parseIntChars_digits (cs : List Char) (hne : cs ≠ [])
    (hdig : ∀ c ∈ cs, isDecDigit c = true) (n : Nat)
    (hread : readDigits cs 0 0 = (n, cs.length)) :
    parseIntChars cs = JSNum.ofMathInt false n
      ∧ parseIntChars ('-' :: cs) = JSNum.ofMathInt true n := by
  obtain ⟨c, rest, rfl⟩ := List.exists_cons_of_ne_nil hne
  have hc := isDecDigit_bounds c (hdig c (List.mem_cons_self _ _))
  have hws : isStrWhiteSpace c = false := by
    unfold isStrWhiteSpace
    simp only [Bool.or_eq_false_iff, Bool.and_eq_false_imp, beq_eq_false_iff_ne,
      decide_eq_true_eq, decide_eq_false_iff_not]
    omega
  have hminus : c ≠ '-' := by
    intro h; rw [h] at hc; revert hc; decide
  have hplus : c ≠ '+' := by
    intro h; rw [h] at hc; revert hc; decide
  have hsign : takeSign (c :: rest) = (false, c :: rest) := by
    unfold takeSign
    split
    · rename_i heq
      simp only [List.cons.injEq] at heq
      exact absurd heq.1 hminus
    · rename_i heq
      simp only [List.cons.injEq] at heq
      exact absurd heq.1 hplus
    · rfl
  have hm : isStrWhiteSpace '-' = false := by decide
  constructor
  · simp [parseIntChars, List.dropWhile_cons, hws, hsign, hread]
  · simp [parseIntChars, List.dropWhile_cons, hm, takeSign, hread]

/-- Parsing the plain decimal numeral of an integer gives the Number value
of that integer. -/
theorem parseInt_decimalString (u : Int) :
    parseInt (.str (decimalString u)) = some (JSNum.ofInt u) := by
  simp only [parseInt, jsToString, Option.some.injEq]
  cases u with
  | ofNat n =>
    obtain ⟨hne, hdig, hread⟩ := toDigits_spec n
    have h := (parseIntChars_digits _ hne hdig n hread).1
    have hd : decide (Int.ofNat n < 0) = false := decide_eq_false (by simp)
    have e : JSNum.ofInt (Int.ofNat n) = JSNum.ofMathInt false n := by
      unfold JSNum.ofInt
      rw [hd]
      rfl
    rw [e]
    exact h
  | negSucc n =>
    obtain ⟨hne, hdig, hread⟩ := toDigits_spec (n + 1)
    have h := (parseIntChars_digits _ hne hdig (n + 1) hread).2
    have hd : decide (Int.negSucc n < 0) = true := decide_eq_true (Int.negSucc_lt_zero n)
    have e : JSNum.ofInt (Int.negSucc n) = JSNum.ofMathInt true (n + 1) := by
      unfold JSNum.ofInt
      rw [hd]
      rfl
    rw [e]
    exact h

/-- The Number value of an integer below `2 ^ 53` in absolute value is that
integer. -/
theorem ofInt_safe (i : Int) (h : isDoubleInt i = true) (hs : i.natAbs < 2 ^ 53) :
    JSNum.ofInt i = .int i h := by
  have hr : roundToDouble i.natAbs = some i.natAbs := roundToDouble_small _ hs
  unfold JSNum.ofInt JSNum.ofMathInt
  split
  · rename_i hnone
    rw [hr] at hnone
    exact absurd hnone (by simp)
  · rename_i d hd
    rw [hr] at hd
    have hdd : d = i.natAbs := (Option.some.inj hd).symm
    subst hdd
    have hi : (if decide (i < 0) = true then -(i.natAbs : Int) else (i.natAbs : Int)) = i := by
      by_cases hneg : i < 0
      · simp only [hneg, decide_True, if_true]
        omega
      · simp only [hneg, decide_False, Bool.false_eq_true, if_false]
        omega
    simp only [hi]

/-- Below `2 ^ 53` in absolute value the string form of an integer number is
its plain decimal numeral. -/
theorem numToString_safe (i : Int) (h : isDoubleInt i = true) (hs : i.natAbs < 2 ^ 53) :
    numToString (.int i h) = decimalString i := by
  have hshort : shortestDecimal i.natAbs = i.natAbs := if_pos hs
  have hlt : i.natAbs < 10 ^ 21 := lt_trans hs (by norm_num)
  have hstr : natToString i.natAbs = Nat.toDigits 10 i.natAbs := by
    unfold natToString
    simp only [hshort]
    rw [if_pos hlt]
  cases i with
  | ofNat n =>
    have hn : ¬ (Int.ofNat n < 0) := by simp
    simp only [numToString, decimalString, hn, if_false]
    exact congrArg String.mk hstr
  | negSucc n =>
    have hn : Int.negSucc n < 0 := Int.negSucc_lt_zero n
    simp only [numToString, decimalString, hn, if_true]
    exact congrArg (fun l => String.mk ('-' :: l)) hstr

/-- `parseInt` of an integer number below `2 ^ 53` in absolute value is that
number. -/
theorem parseInt_num_safe (i : Int) (h : isDoubleInt i = true) (hs : i.natAbs < 2 ^ 53) :
    parseInt (.num (.int i h)) = some (.int i h) := by
  have hp := parseInt_decimalString i
  simp only [parseInt, jsToString] at hp ⊢
  rw [numToString_safe i h hs, ← ofInt_safe i h hs]
  exact hp

end ParseLemmas

/-! ## The claims -/

section Claims

/-- C1 fails for a truthy user that has no string form: in
`{amount: 50, transaction_type: "deposit", user: {toString: 1}}` the three
fields are present and truthy, `parseInt(user, 10)` throws, and the create
answers 500 and inserts nothing. -/
theorem create_unconvertible_user_fails :
    truthy (getProp userObjectBody "amount") = true
    ∧ truthy (getProp userObjectBody "transaction_type") = true
    ∧ truthy (getProp userObjectBody "user") = true
    ∧ createTransaction 1000 sampleId userObjectBody ([] : Store (List Char))
        = (⟨500, .error "Error creating transaction"⟩, []) :=
  ⟨by decide, by decide, by decide, rfl⟩

/-- C1, amended: a create request whose `amount`, `transaction_type` and
`user` are all truthy and whose `user` has a string form, so that
`parseInt(user, 10)` returns a number `userId`, served with a
storage-assigned id `oid` that no stored document has, answers 201 with a
record of status `PENDING` whose timestamp is the clock value `now` read
during the call (hence at or after any instant `start` that is not later
than that reading), and the collection afterwards is the collection before
plus exactly one document carrying the same amount, transaction type, parsed
user, timestamp and status `PENDING` under the returned id. -/
theorem create_valid_inserts_pending {Id : Type} [DecidableEq Id]
    (now : Time) (oid : Id) (body : JSObject) (db : Store Id)
    (userId : JSNum)
    (hamount : truthy (getProp body "amount") = true)
    (htype : truthy (getProp body "transaction_type") = true)
    (huser : truthy (getProp body "user") = true)
    (hparse : parseInt (getProp body "user") = some userId)
    (hfresh : ∀ d ∈ db, d._id ≠ oid) :
    createTransaction now oid body db =
      (⟨201, .created ⟨oid, getProp body "amount", getProp body "transaction_type",
          userId, now, .str "PENDING"⟩⟩,
        db ++ [⟨oid, getProp body "amount", getProp body "transaction_type",
          userId, now, .str "PENDING"⟩])
      ∧ ∀ start : Time, start ≤ now → ∀ c,
          (createTransaction now oid body db).1.json = .created c → start ≤ c.timestamp := by
  have hcreate : createTransaction now oid body db =
      (⟨201, .created ⟨oid, getProp body "amount", getProp body "transaction_type",
          userId, now, .str "PENDING"⟩⟩,
        db ++ [⟨oid, getProp body "amount", getProp body "transaction_type",
          userId, now, .str "PENDING"⟩]) := by
    simp only [createTransaction, hamount, htype, huser, Bool.not_true, Bool.or_self,
      Bool.false_eq_true, if_false, hparse]
    rw [insertOne_fresh _ _ _ hfresh]
  refine ⟨hcreate, ?_⟩
  intro start hstart c hc
  rw [hcreate] at hc
  simp only [ResBody.created.injEq] at hc
  rw [← hc]
  exact hstart

theorem create_valid_inserts_pending_witness :
    (truthy (getProp depositBody "amount") = true
      ∧ truthy (getProp depositBody "transaction_type") = true
      ∧ truthy (getProp depositBody "user") = true
      ∧ parseInt (getProp depositBody "user") = some (.ofInt 7)
      ∧ ∀ d ∈ ([] : Store (List Char)), d._id ≠ sampleId)
    ∧ (createTransaction 1000 sampleId depositBody [] =
        (⟨201, .created ⟨sampleId, .num (.ofInt 50), .str "deposit", .ofInt 7, 1000,
          .str "PENDING"⟩⟩, [depositDoc])) :=
  ⟨⟨by decide, by decide, by decide, by decide, by simp⟩,
    (create_valid_inserts_pending 1000 sampleId depositBody [] (.ofInt 7) (by decide)
      (by decide) (by decide) (by decide) (by simp)).1⟩

/-- C2: a create request in which at least one of `amount`,
`transaction_type`, `user` is absent or falsy answers 400 with the
missing-required-fields error and leaves the collection unchanged. -/
theorem create_missing_field_rejected {Id : Type} [DecidableEq Id]
    (now : Time) (oid : Id) (body : JSObject) (db : Store Id)
    (h : truthy (getProp body "amount") = false
      ∨ truthy (getProp body "transaction_type") = false
      ∨ truthy (getProp body "user") = false) :
    createTransaction now oid body db = (⟨400, .error "Missing required fields"⟩, db) := by
  unfold createTransaction
  rcases h with h | h | h <;> simp [h]

theorem create_missing_field_rejected_witness :
    (truthy (getProp [("amount", .num (.ofInt 0)), ("user", .str "7")] "amount") = false
      ∨ truthy (getProp [("amount", .num (.ofInt 0)), ("user", .str "7")]
          "transaction_type") = false
      ∨ truthy (getProp [("amount", .num (.ofInt 0)), ("user", .str "7")] "user") = false)
    ∧ createTransaction 1000 otherId
        [("amount", .num (.ofInt 0)), ("user", .str "7")] [depositDoc]
        = (⟨400, .error "Missing required fields"⟩, [depositDoc]) :=
  ⟨Or.inl (by decide),
    create_missing_field_rejected 1000 otherId
      [("amount", .num (.ofInt 0)), ("user", .str "7")] [depositDoc] (Or.inl (by decide))⟩

/-- C5: an update request whose `status` body value is anything other than
exactly the string `COMPLETED` or the string `FAILED` answers 400 "Invalid
status" and leaves the collection unchanged, whatever the id path parameter
and the collection are. -/
theorem update_invalid_status_rejected {Id : Type} [DecidableEq Id]
    (mkObjectId : String → Option Id) (id : String)
    (body : JSObject) (db : Store Id)
    (hc : getProp body "status" ≠ .str "COMPLETED")
    (hf : getProp body "status" ≠ .str "FAILED") :
    updateStatus mkObjectId id body db = (⟨400, .error "Invalid status"⟩, db) := by
  have h : (!truthy (getProp body "status")
      || !includes ["COMPLETED", "FAILED"] (getProp body "status")) = true := by
    cases hb : (!truthy (getProp body "status")
      || !includes ["COMPLETED", "FAILED"] (getProp body "status")) with
    | true => rfl
    | false =>
      rcases (status_check_iff _).1 hb with h | h
      · exact absurd h hc
      · exact absurd h hf
  simp only [updateStatus, h, if_true]

theorem update_invalid_status_rejected_witness :
    (getProp [("status", .str "PENDING")] "status" ≠ .str "COMPLETED"
      ∧ getProp [("status", .str "PENDING")] "status" ≠ .str "FAILED")
    ∧ updateStatus hexObjectId "not-an-id" [("status", .str "PENDING")] [depositDoc]
        = (⟨400, .error "Invalid status"⟩, [depositDoc]) :=
  ⟨⟨by decide, by decide⟩,
    update_invalid_status_rejected hexObjectId "not-an-id" [("status", .str "PENDING")]
      [depositDoc] (by decide) (by decide)⟩

/-- C10: get by id answers 200 with the matching record when the id is
well-formed and a record with that id is stored, 404 "Transaction not found"
when the id is well-formed and no stored record has it, and 500 when the
identifier cannot be constructed from the path parameter; the collection is
unchanged in all three cases. -/
theorem get_by_id_cases {Id : Type} [DecidableEq Id]
    (mkObjectId : String → Option Id) (id : String) (db : Store Id) :
    (∀ oid, mkObjectId id = some oid → (∃ t ∈ db, t._id = oid) →
      ∃ t ∈ db, t._id = oid
        ∧ getTransaction mkObjectId id db = (⟨200, .doc (some t)⟩, db))
    ∧ (∀ oid, mkObjectId id = some oid → (∀ t ∈ db, t._id ≠ oid) →
      getTransaction mkObjectId id db = (⟨404, .error "Transaction not found"⟩, db))
    ∧ (mkObjectId id = none →
      getTransaction mkObjectId id db = (⟨500, .error "Error fetching transaction"⟩, db)) := by
  refine ⟨?_, ?_, ?_⟩
  · rintro oid hid ⟨t, ht, hto⟩
    obtain ⟨d, hd⟩ := findOne_isSome_of_mem ht hto
    exact ⟨d, (findOne_some_mem hd).1, (findOne_some_mem hd).2, by
      simp [getTransaction, hid, hd]⟩
  · intro oid hid hnone
    have := (findOne_eq_none_iff db oid).2 hnone
    simp [getTransaction, hid, this]
  · intro hid
    simp [getTransaction, hid]

theorem get_by_id_cases_witness :
    getTransaction hexObjectId sampleIdString [depositDoc]
        = (⟨200, .doc (some depositDoc)⟩, [depositDoc])
    ∧ getTransaction hexObjectId otherIdString [depositDoc]
        = (⟨404, .error "Transaction not found"⟩, [depositDoc])
    ∧ getTransaction hexObjectId "not-an-id" [depositDoc]
        = (⟨500, .error "Error fetching transaction"⟩, [depositDoc]) := by
  have h := get_by_id_cases hexObjectId
  refine ⟨?_, (h otherIdString [depositDoc]).2.1 otherId (by decide) (by decide),
    (h "not-an-id" [depositDoc]).2.2 (by decide)⟩
  obtain ⟨t, ht, _, hget⟩ :=
    (h sampleIdString [depositDoc]).1 sampleId (by decide) ⟨depositDoc, by simp, rfl⟩
  rw [List.mem_singleton] at ht
  rw [hget, ht]

/-- C6: when the id is well-formed, `d` is the stored record with that id,
and the requested status `s` is `COMPLETED` or `FAILED` and differs from the
status stored in `d`, the update answers 200 with `d` carrying status `s`, a
get by the same id afterwards returns that record, and the collection after
the update is the collection before with that one record's status replaced:
its id, amount, transaction type, user and timestamp, and every other
record, are unchanged. -/
theorem update_genuine_change {Id : Type} [DecidableEq Id]
    (mkObjectId : String → Option Id) (id : String)
    (body : JSObject) (db : Store Id) (oid : Id) (s : String) (d : Transaction Id)
    (hs : s = "COMPLETED" ∨ s = "FAILED")
    (hbody : getProp body "status" = .str s)
    (hid : mkObjectId id = some oid)
    (hfind : findOne db oid = some d)
    (hne : d.status ≠ .str s) :
    ∃ pre post, db = pre ++ d :: post ∧ (∀ x ∈ pre, x._id ≠ oid)
      ∧ updateStatus mkObjectId id body db =
          (⟨200, .doc (some ⟨d._id, d.amount, d.transaction_type, d.user, d.timestamp,
              .str s⟩)⟩,
            pre ++ ⟨d._id, d.amount, d.transaction_type, d.user, d.timestamp, .str s⟩ :: post)
      ∧ getTransaction mkObjectId id (updateStatus mkObjectId id body db).2 =
          (⟨200, .doc (some ⟨d._id, d.amount, d.transaction_type, d.user, d.timestamp,
              .str s⟩)⟩, (updateStatus mkObjectId id body db).2) := by
  obtain ⟨pre, post, hdb, hpre, hup⟩ := updateOne_changes_status db oid (.str s) d hfind hne
  have hfound : findOne (pre ++ ({ d with status := .str s } : Transaction Id) :: post) oid
      = some { d with status := .str s } :=
    findOne_updated pre post _ oid hpre (findOne_some_mem hfind).2
  have hupd : updateStatus mkObjectId id body db =
      (⟨200, .doc (some { d with status := .str s })⟩,
        pre ++ { d with status := .str s } :: post) := by
    rw [updateStatus_valid mkObjectId id body db oid s hs hbody hid, hup]
    simp [hfound]
  refine ⟨pre, post, hdb, hpre, hupd, ?_⟩
  rw [hupd]
  simp only [getTransaction, hid, hfound]

theorem update_genuine_change_witness :
    ((("COMPLETED" : String) = "COMPLETED" ∨ ("COMPLETED" : String) = "FAILED")
      ∧ getProp [("status", .str "COMPLETED")] "status" = .str "COMPLETED"
      ∧ hexObjectId sampleIdString = some sampleId
      ∧ findOne [depositDoc] sampleId = some depositDoc
      ∧ depositDoc.status ≠ .str "COMPLETED")
    ∧ ∃ pre post, [depositDoc] = pre ++ depositDoc :: post ∧ (∀ x ∈ pre, x._id ≠ sampleId)
      ∧ updateStatus hexObjectId sampleIdString [("status", .str "COMPLETED")] [depositDoc] =
          (⟨200, .doc (some ⟨depositDoc._id, depositDoc.amount, depositDoc.transaction_type,
              depositDoc.user, depositDoc.timestamp, .str "COMPLETED"⟩)⟩,
            pre ++ ⟨depositDoc._id, depositDoc.amount, depositDoc.transaction_type,
              depositDoc.user, depositDoc.timestamp, .str "COMPLETED"⟩ :: post)
      ∧ getTransaction hexObjectId sampleIdString
          (updateStatus hexObjectId sampleIdString [("status", .str "COMPLETED")]
            [depositDoc]).2 =
          (⟨200, .doc (some ⟨depositDoc._id, depositDoc.amount, depositDoc.transaction_type,
              depositDoc.user, depositDoc.timestamp, .str "COMPLETED"⟩)⟩,
            (updateStatus hexObjectId sampleIdString [("status", .str "COMPLETED")]
              [depositDoc]).2) :=
  ⟨⟨Or.inl rfl, by decide, by decide, by decide, by decide⟩,
    update_genuine_change hexObjectId sampleIdString [("status", .str "COMPLETED")]
      [depositDoc] sampleId "COMPLETED" depositDoc (Or.inl rfl) (by decide) (by decide)
      (by decide) (by decide)⟩

/-- C7: with a status `s` that is `COMPLETED` or `FAILED` and a well-formed
id, the update answers 404 "Transaction not found" and leaves the collection
unchanged when no stored record has that id or when the record with that id
already has stored status `s`; and whenever the update answers 404, the
status is one of the two literals, the id is well-formed, and one of those
two cases holds. -/
theorem update_not_found_cases {Id : Type} [DecidableEq Id]
    (mkObjectId : String → Option Id) (id : String)
    (body : JSObject) (db : Store Id) :
    (∀ oid s, (s = "COMPLETED" ∨ s = "FAILED") → getProp body "status" = .str s →
      mkObjectId id = some oid →
      ((∀ x ∈ db, x._id ≠ oid) ∨ ∃ d, findOne db oid = some d ∧ d.status = .str s) →
      updateStatus mkObjectId id body db = (⟨404, .error "Transaction not found"⟩, db))
    ∧ ((updateStatus mkObjectId id body db).1.status = 404 →
      ∃ oid s, (s = "COMPLETED" ∨ s = "FAILED") ∧ getProp body "status" = .str s
        ∧ mkObjectId id = some oid
        ∧ ((∀ x ∈ db, x._id ≠ oid) ∨ ∃ d, findOne db oid = some d ∧ d.status = .str s)) := by
  constructor
  · intro oid s hs hbody hid hcase
    rw [updateStatus_valid mkObjectId id body db oid s hs hbody hid]
    have hup : updateOne db oid (.str s) = ⟨db, 0⟩ := by
      rcases hcase with h | ⟨d, hd, hst⟩
      · exact updateOne_no_match db oid _ h
      · exact updateOne_same_status db oid _ d hd hst
    simp [hup]
  · intro h404
    cases hchk : (!truthy (getProp body "status")
        || !includes ["COMPLETED", "FAILED"] (getProp body "status")) with
    | true => simp [updateStatus, hchk] at h404
    | false =>
      have hv := (status_check_iff _).1 hchk
      obtain ⟨s, hs, hbody⟩ : ∃ s, (s = "COMPLETED" ∨ s = "FAILED")
          ∧ getProp body "status" = .str s := by
        rcases hv with h | h
        · exact ⟨"COMPLETED", Or.inl rfl, h⟩
        · exact ⟨"FAILED", Or.inr rfl, h⟩
      cases hid : mkObjectId id with
      | none => simp [updateStatus, hchk, hid] at h404
      | some oid =>
        refine ⟨oid, s, hs, hbody, rfl, ?_⟩
        rw [updateStatus_valid mkObjectId id body db oid s hs hbody hid] at h404
        cases hfind : findOne db oid with
        | none => exact Or.inl ((findOne_eq_none_iff db oid).1 hfind)
        | some d =>
          right
          refine ⟨d, rfl, ?_⟩
          by_contra hne
          obtain ⟨pre, post, _, _, hup⟩ := updateOne_changes_status db oid (.str s) d hfind hne
          simp [hup] at h404

theorem update_not_found_cases_witness :
    updateStatus hexObjectId otherIdString [("status", .str "FAILED")] [depositDoc]
        = (⟨404, .error "Transaction not found"⟩, [depositDoc])
    ∧ updateStatus hexObjectId sampleIdString [("status", .str "FAILED")]
        [⟨sampleId, .num (.ofInt 50), .str "deposit", .ofInt 7, 1000, .str "FAILED"⟩]
        = (⟨404, .error "Transaction not found"⟩,
          [⟨sampleId, .num (.ofInt 50), .str "deposit", .ofInt 7, 1000, .str "FAILED"⟩]) :=
  ⟨(update_not_found_cases hexObjectId otherIdString [("status", .str "FAILED")]
      [depositDoc]).1 otherId "FAILED" (Or.inr rfl) (by decide) (by decide)
      (Or.inl (by decide)),
    (update_not_found_cases hexObjectId sampleIdString [("status", .str "FAILED")]
      [⟨sampleId, .num (.ofInt 50), .str "deposit", .ofInt 7, 1000, .str "FAILED"⟩]).1
      sampleId "FAILED" (Or.inr rfl) (by decide) (by decide)
      (Or.inr ⟨⟨sampleId, .num (.ofInt 50), .str "deposit", .ofInt 7, 1000, .str "FAILED"⟩,
        by decide, rfl⟩)⟩

/-- C9: in every collection reached from the empty collection by any
sequence of create, list, get and update requests, with arbitrary bodies and
parameters, every record's status is the string `PENDING`, `COMPLETED` or
`FAILED`; and in such a collection every create that answers 201 appends
exactly one record, under the returned id, whose status is `PENDING`. -/
theorem status_invariant {Id : Type} [DecidableEq Id]
    (mkObjectId : String → Option Id) (reqs : List (Request Id)) :
    (∀ d ∈ serve mkObjectId reqs [],
      d.status = .str "PENDING" ∨ d.status = .str "COMPLETED" ∨ d.status = .str "FAILED")
    ∧ ∀ now oid body,
        (createTransaction now oid body (serve mkObjectId reqs [])).1.status = 201 →
        ∃ t : Transaction Id,
          (createTransaction now oid body (serve mkObjectId reqs [])).2
              = serve mkObjectId reqs [] ++ [t]
            ∧ t._id = oid ∧ t.status = .str "PENDING" := by
  constructor
  · exact serve_preserves_status mkObjectId reqs [] (by simp)
  · intro now oid body h201
    rcases createTransaction_store now oid body (serve mkObjectId reqs [])
      with ⟨hne, _⟩ | ⟨_, t, hs, hid, _, _, _, _, ht, _⟩
    · exact absurd h201 hne
    · exact ⟨t, hs, hid, ht⟩

theorem status_invariant_witness :
    serve hexObjectId scenario []
        = [⟨sampleId, .num (.ofInt 50), .str "deposit", .ofInt 7, 1000, .str "COMPLETED"⟩]
    ∧ (∀ d ∈ serve hexObjectId scenario [],
      d.status = .str "PENDING" ∨ d.status = .str "COMPLETED" ∨ d.status = .str "FAILED") :=
  ⟨by decide, (status_invariant hexObjectId scenario).1⟩

/-- C4 at the failing input: the collection holds one record of user 0 (the
one a create with `user: "0"` stores), yet listing with `user_id=0` answers
400 instead of 200 with that record; on the empty collection it answers 400
as well instead of 200 with an empty sequence. -/
theorem list_user_zero_rejected :
    (createTransaction 2000 otherId userZeroBody []).2 = [userZeroDoc]
    ∧ [userZeroDoc].countP (fun d => d.user == .ofInt 0) = 1
    ∧ listTransactions [("user_id", .str (decimalString 0))] [userZeroDoc]
        = (⟨400, .error "User ID is required and must be an integer"⟩, [userZeroDoc])
    ∧ listTransactions [("user_id", .str (decimalString 0))] ([] : Store (List Char))
        = (⟨400, .error "User ID is required and must be an integer"⟩, []) :=
  ⟨by decide, by decide, rfl, rfl⟩

/-- C3 fails when the supplied user is not already an integer: the create
of `{amount: 50, transaction_type: "deposit", user: "7abc"}` answers 201, and
the get by the returned id answers 200 with a record whose user is the
number 7, not the supplied string. -/
theorem create_get_user_differs :
    createTransaction 1000 sampleId userTextBody []
        = (⟨201, .created ⟨sampleId, .num (.ofInt 50), .str "deposit", .ofInt 7, 1000,
            .str "PENDING"⟩⟩, [depositDoc])
    ∧ hexObjectId sampleIdString = some sampleId
    ∧ getTransaction hexObjectId sampleIdString [depositDoc]
        = (⟨200, .doc (some depositDoc)⟩, [depositDoc])
    ∧ JSVal.num depositDoc.user ≠ getProp userTextBody "user" :=
  ⟨rfl, by decide, rfl, by decide⟩

/-- C3, amended: when a create answers 201, a get by any path parameter
that denotes the returned id answers 200 with a record under that id whose
amount and transaction type are the supplied ones and whose user is the
integer number `parseInt(user, 10)` returns for the supplied user, whenever
it returns one; in particular the user is the supplied user when that is an
integer number below `2 ^ 53` in absolute value. -/
theorem create_then_get {Id : Type} [DecidableEq Id]
    (mkObjectId : String → Option Id) (now : Time) (oid : Id)
    (body : JSObject) (db : Store Id) (id : String)
    (h201 : (createTransaction now oid body db).1.status = 201)
    (hid : mkObjectId id = some oid) :
    ∃ t, getTransaction mkObjectId id (createTransaction now oid body db).2
          = (⟨200, .doc (some t)⟩, (createTransaction now oid body db).2)
      ∧ t._id = oid
      ∧ t.amount = getProp body "amount"
      ∧ t.transaction_type = getProp body "transaction_type"
      ∧ (∀ (n : Int) (h : isDoubleInt n = true),
          parseInt (getProp body "user") = some (.int n h) → t.user = .int n h)
      ∧ (∀ (n : Int) (h : isDoubleInt n = true), n.natAbs < 2 ^ 53 →
          getProp body "user" = .num (.int n h) → JSVal.num t.user = getProp body "user") := by
  rcases createTransaction_store now oid body db
    with ⟨hne, _⟩ | ⟨_, t, hs, hto, ha, htt, hus, _, _, hfresh⟩
  · exact absurd h201 hne
  · have hfind : findOne (db ++ [t]) oid = some t := by
      have := findOne_append_new db t (by rw [hto]; exact hfresh)
      rwa [hto] at this
    refine ⟨t, ?_, hto, ha, htt, ?_, ?_⟩
    · rw [hs]
      simp only [getTransaction, hid, hfind]
    · intro n h hn
      rw [hus] at hn
      exact Option.some.inj hn
    · intro n h hsafe hn
      rw [hn, parseInt_num_safe n h hsafe] at hus
      rw [hn, ← Option.some.inj hus]

theorem create_then_get_witness :
    ((createTransaction 1000 sampleId depositBody ([] : Store (List Char))).1.status = 201
      ∧ hexObjectId sampleIdString = some sampleId)
    ∧ ∃ t, getTransaction hexObjectId sampleIdString
            (createTransaction 1000 sampleId depositBody []).2
          = (⟨200, .doc (some t)⟩, (createTransaction 1000 sampleId depositBody []).2)
      ∧ t._id = sampleId
      ∧ t.amount = getProp depositBody "amount"
      ∧ t.transaction_type = getProp depositBody "transaction_type"
      ∧ (∀ (n : Int) (h : isDoubleInt n = true),
          parseInt (getProp depositBody "user") = some (.int n h) → t.user = .int n h)
      ∧ (∀ (n : Int) (h : isDoubleInt n = true), n.natAbs < 2 ^ 53 →
          getProp depositBody "user" = .num (.int n h) →
          JSVal.num t.user = getProp depositBody "user") :=
  ⟨⟨by decide, by decide⟩,
    create_then_get hexObjectId 1000 sampleId depositBody [] sampleIdString (by decide)
      (by decide)⟩

/-- C8 at the failing input: the create of
`{amount: 50, transaction_type: "deposit", user: "abc"}` answers 201 and both
returns and stores NaN as the user, which is not an integer. -/
theorem create_non_numeric_user_stores_nan :
    createTransaction 1000 sampleId userNameBody ([] : Store (List Char))
        = (⟨201, .created ⟨sampleId, .num (.ofInt 50), .str "deposit", .nan, 1000,
            .str "PENDING"⟩⟩,
          [⟨sampleId, .num (.ofInt 50), .str "deposit", .nan, 1000, .str "PENDING"⟩])
    ∧ parseInt (getProp userNameBody "user") = some .nan :=
  ⟨rfl, by decide⟩

end Claims

end TransactionService
